import Mathlib

/-!
# Verification of the task-tracking server (My-secondweb)

Shallow embedding of the two server variants found in the repository
(`server.js`, the disk-upload variant, and the GridFS variant) together with
the route surface, and proofs of the specification claims about them.

A MongoDB store is modelled as a `List Task` (documents in natural order);
`findOneAndUpdate` updates the first document matching the filter in place,
`deleteOne` removes the first matching document and reports the deleted
count.  Timestamps are `Nat`; a document id is a `Nat` (a well-formed
ObjectId), with request-supplied ids modelled as `Option Nat` (`none` = the
string fails ObjectId casting, which Mongoose raises as a CastError caught by
the handler's generic catch) and body ids as `BodyId` (which can also be
absent: Mongoose strips `undefined` keys from query filters and updates).
-/

namespace TodoApp

/-- JavaScript `String.prototype.trim()`: strip whitespace from both ends.
(Defined over the character list so that it evaluates by kernel reduction.) -/
def jsTrim (s : String) : String :=
  (((s.data.dropWhile Char.isWhitespace).reverse.dropWhile
      Char.isWhitespace).reverse).asString

/-- A task document, mirroring the Mongoose schema of both server variants:
`text`, `attachment` (default null), `completed` (default false),
`createdAt` (default now), `deletedAt` (default null). -/
structure Task where
  id : Nat
  text : String
  attachment : Option String
  completed : Bool
  createdAt : Nat
  deletedAt : Option Nat
deriving DecidableEq, Repr

/-- A MongoDB query filter as used by the handlers: an optional `_id`
constraint, an optional `completed` constraint, and an optional `deletedAt`
constraint (`some true` = `deletedAt: null`, `some false` =
`deletedAt: \x7b$ne: null\x7d`). -/
structure MongoFilter where
  idEq : Option Nat := none
  completed : Option Bool := none
  deletedAtNull : Option Bool := none
deriving DecidableEq, Repr

/-- Whether a task document matches a filter. -/
def matchesFilter (f : MongoFilter) (t : Task) : Bool :=
  (match f.idEq with
   | none => true
   | some i => decide (t.id = i)) &&
  (match f.completed with
   | none => true
   | some b => decide (t.completed = b)) &&
  (match f.deletedAtNull with
   | none => true
   | some true => decide (t.deletedAt = none)
   | some false => decide (t.deletedAt ≠ none))

/-- `buildFilter` from both server variants: a switch on the `status` query
string; `completed`, `incomplete` and `trashed` get dedicated filters and
everything else falls through to the default `\x7b deletedAt: null \x7d`. -/
def buildFilter (status : String) : MongoFilter :=
  if status = "completed" then { completed := some true, deletedAtNull := some true }
  else if status = "incomplete" then { completed := some false, deletedAtNull := some true }
  else if status = "trashed" then { deletedAtNull := some false }
  else { deletedAtNull := some true }

/-- An update document: `none` in a field means the key is absent from the
update (Mongoose strips `undefined` values), so the field is left unchanged. -/
structure TaskUpdate where
  text : Option String := none
  completed : Option Bool := none
  deletedAt : Option (Option Nat) := none
deriving DecidableEq, Repr

/-- Apply an update document to a task (a MongoDB `$set` of the present keys). -/
def applyUpdate (u : TaskUpdate) (t : Task) : Task :=
  { t with
    text := u.text.getD t.text
    completed := u.completed.getD t.completed
    deletedAt := u.deletedAt.getD t.deletedAt }

/-- `Model.findOneAndUpdate(filter, update, \x7bnew: true\x7d)`: update the first
matching document in place and return the updated document. -/
def findOneAndUpdate (f : MongoFilter) (u : TaskUpdate) : List Task → Option Task × List Task
  | [] => (none, [])
  | t :: rest =>
    if matchesFilter f t then
      (some (applyUpdate u t), applyUpdate u t :: rest)
    else
      let (r, rest1) := findOneAndUpdate f u rest
      (r, t :: rest1)

/-- `deleteOne`: remove the first element satisfying `p`, returning the
deleted count (`0` or `1`) and the remaining list. -/
def deleteOne {α : Type} (p : α → Bool) : List α → Nat × List α
  | [] => (0, [])
  | x :: xs =>
    if p x then (1, xs)
    else
      let (c, r) := deleteOne p xs
      (c, x :: r)

/-- The sort relation of `.sort(\x7b createdAt: -1 \x7d)`: newest first. -/
def createdDesc (a b : Task) : Prop := b.createdAt ≤ a.createdAt

instance : DecidableRel createdDesc :=
  fun a b => inferInstanceAs (Decidable (b.createdAt ≤ a.createdAt))

instance : IsTotal Task createdDesc :=
  ⟨fun a b => Nat.le_total b.createdAt a.createdAt⟩

instance : IsTrans Task createdDesc :=
  ⟨fun _ _ _ h1 h2 => Nat.le_trans h2 h1⟩

/-- The HTTP responses the handlers produce. -/
inductive Response where
  | ok (task : Task)
  | okMsg (message : String) (task : Task)
  | okList (tasks : List Task)
  | okMessage (message : String)
  | fileOk (contentType : String)
  | created (task : Task)
  | badRequest (error : String)
  | notFound (error : String)
  | serverError (error : String)
deriving DecidableEq, Repr

/-- The HTTP status code of a response. -/
def Response.statusCode : Response → Nat
  | .ok _ => 200
  | .okMsg _ _ => 200
  | .okList _ => 200
  | .okMessage _ => 200
  | .fileOk _ => 200
  | .created _ => 201
  | .badRequest _ => 400
  | .notFound _ => 404
  | .serverError _ => 500

/-- Stand-in for the message of a Mongoose CastError on a malformed ObjectId
(the handlers return it verbatim in the 500 body). -/
def castErrorMessage : String := "Cast to ObjectId failed"

/-- Stand-in for the message of the Mongoose ValidationError raised by
`runValidators` when `text` is set to an empty string. -/
def validationErrorMessage : String := "Task validation failed: text is required"

/-- An id field of a request body: absent (`undefined`, stripped from the
query filter), present but failing ObjectId casting, or a valid id. -/
inductive BodyId where
  | missing
  | malformed
  | given (i : Nat)
deriving DecidableEq, Repr

/-- `POST /api/tasks/create` of `server.js`: reject absent or
whitespace-only text with 400 before touching the store, otherwise create the
task (`completed` false, `deletedAt` null); a store failure is caught and
returned as a 500 whose body carries `err.message`. -/
def createTask (now newId : Nat) (text : Option String) (file : Option String)
    (storeFailure : Option String) (store : List Task) : Response × List Task :=
  match text with
  | none => (.badRequest "Task text required", store)
  | some s =>
    if jsTrim s = "" then (.badRequest "Task text required", store)
    else
      match storeFailure with
      | some msg => (.serverError msg, store)
      | none =>
        let task : Task :=
          { id := newId, text := jsTrim s, attachment := file,
            completed := false, createdAt := now, deletedAt := none }
        (.created task, store ++ [task])

/-- `POST /api/tasks/create` of the GridFS variant: same validation, but the
catch clause returns the fixed body `"Task creation failed"` instead of the
internal error's message. -/
def createTaskGridfs (now newId : Nat) (text : Option String) (file : Option String)
    (storeFailure : Option String) (store : List Task) : Response × List Task :=
  match text with
  | none => (.badRequest "Task text required", store)
  | some s =>
    if jsTrim s = "" then (.badRequest "Task text required", store)
    else
      match storeFailure with
      | some _ => (.serverError "Task creation failed", store)
      | none =>
        let task : Task :=
          { id := newId, text := jsTrim s, attachment := file,
            completed := false, createdAt := now, deletedAt := none }
        (.created task, store ++ [task])

/-- `GET /api/tasks/view`: `Task.find(buildFilter(req.query.status)).sort(\x7bcreatedAt: -1\x7d)`.
An absent query parameter hits the JS default parameter `status = 'all'`. -/
def viewTasks (store : List Task) (status : Option String) : List Task :=
  List.insertionSort createdDesc
    (store.filter (matchesFilter (buildFilter (status.getD "all"))))

/-- The `GET /api/tasks/view` route: always 200 with the filtered list. -/
def viewRoute (store : List Task) (status : Option String) : Response :=
  .okList (viewTasks store status)

/-- `PATCH /api/tasks/status`: `findOneAndUpdate(\x7b_id: id, deletedAt: null\x7d,
\x7bcompleted\x7d, \x7bnew: true\x7d)`; no match gives 404.  A malformed id raises a
CastError caught as 500; a missing id is stripped from the filter, which
degenerates to `\x7bdeletedAt: null\x7d`. -/
def patchStatus (id : BodyId) (completed : Option Bool) (store : List Task) :
    Response × List Task :=
  match id with
  | .malformed => (.serverError castErrorMessage, store)
  | .missing =>
    match findOneAndUpdate { deletedAtNull := some true } { completed := completed } store with
    | (none, s) => (.notFound "Task not found", s)
    | (some task, s) => (.ok task, s)
  | .given i =>
    match findOneAndUpdate { idEq := some i, deletedAtNull := some true }
        { completed := completed } store with
    | (none, s) => (.notFound "Task not found", s)
    | (some task, s) => (.ok task, s)

/-- `PUT /api/tasks/:id`: `findOneAndUpdate(\x7b_id, deletedAt: null\x7d,
\x7btext: req.body.text?.trim()\x7d, \x7bnew: true, runValidators: true\x7d)`.  Missing
text is `undefined` and stripped from the update; text trimming to the empty
string fails the `required` update validator, and the resulting
ValidationError is caught by the generic catch as a 500; no active match
gives 404.  A malformed path id raises a CastError caught as 500. -/
def putTask (id : Option Nat) (text : Option String) (store : List Task) :
    Response × List Task :=
  match id with
  | none => (.serverError castErrorMessage, store)
  | some i =>
    let trimmed := text.map jsTrim
    if trimmed = some "" then (.serverError validationErrorMessage, store)
    else
      match findOneAndUpdate { idEq := some i, deletedAtNull := some true }
          { text := trimmed } store with
      | (none, s) => (.notFound "Task not found", s)
      | (some task, s) => (.ok task, s)

/-- `DELETE /api/tasks/delete/:id` (soft delete): set `deletedAt` to the
current time on the first active match; 404 when absent or already trashed. -/
def softDeleteTask (now : Nat) (id : Option Nat) (store : List Task) :
    Response × List Task :=
  match id with
  | none => (.serverError castErrorMessage, store)
  | some i =>
    match findOneAndUpdate { idEq := some i, deletedAtNull := some true }
        { deletedAt := some (some now) } store with
    | (none, s) => (.notFound "Task not found or already trashed", s)
    | (some task, s) => (.okMsg "Moved to trash" task, s)

/-- `PATCH /api/tasks/restore/:id`: clear `deletedAt` on the first trashed
match; 404 when not in trash. -/
def restoreTask (id : Option Nat) (store : List Task) : Response × List Task :=
  match id with
  | none => (.serverError castErrorMessage, store)
  | some i =>
    match findOneAndUpdate { idEq := some i, deletedAtNull := some false }
        { deletedAt := some none } store with
    | (none, s) => (.notFound "Task not found in trash", s)
    | (some task, s) => (.okMsg "Task restored" task, s)

/-- `DELETE /api/tasks/permanent-delete/:id` of `server.js`:
`Task.deleteOne(\x7b_id, deletedAt: \x7b$ne: null\x7d\x7d)`; a zero deleted count gives
404. -/
def permanentDeleteTask (id : Option Nat) (store : List Task) :
    Response × List Task :=
  match id with
  | none => (.serverError castErrorMessage, store)
  | some i =>
    let pr := deleteOne (fun t => decide (t.id = i) && decide (t.deletedAt ≠ none)) store
    if pr.1 = 0 then (.notFound "Task not found or not trashed", pr.2)
    else (.okMessage "Task permanently deleted", pr.2)

/-- A GridFS file document in the `uploads.files` collection: an `_id`, the
generated `filename` (random hex plus extension) and the stored content
type. -/
structure FileDoc where
  fid : Nat
  filename : String
  contentType : String
deriving DecidableEq, Repr

/-- The state of the GridFS variant: the task collection and the
`uploads.files` collection backing the bucket. -/
structure GridState where
  tasks : List Task
  files : List FileDoc
deriving DecidableEq, Repr

/-- `DELETE /api/tasks/permanent-delete/:id` of the GridFS variant: find the
trashed task; if it references an attachment, look the file document up by
filename and, when found, delete the blob by its `_id` (silently proceeding
when the lookup misses); then delete the task document by its `_id`. -/
def permanentDeleteGridfs (id : Option Nat) (st : GridState) :
    Response × GridState :=
  match id with
  | none => (.serverError castErrorMessage, st)
  | some i =>
    match st.tasks.find? (fun t => decide (t.id = i) && decide (t.deletedAt ≠ none)) with
    | none => (.notFound "Task not found or not trashed", st)
    | some task =>
      let files1 :=
        match task.attachment with
        | none => st.files
        | some fn =>
          match st.files.find? (fun f => decide (f.filename = fn)) with
          | none => st.files
          | some fd => (deleteOne (fun f => decide (f.fid = fd.fid)) st.files).2
      let tasks1 := (deleteOne (fun u => decide (u.id = task.id)) st.tasks).2
      (.okMessage "Task permanently deleted", { tasks := tasks1, files := files1 })

/-- `GET /api/tasks/file/:filename` of the GridFS variant: look the file
document up by filename; 404 when unknown, otherwise stream it back with the
stored content type. -/
def getFileGridfs (fn : String) (st : GridState) : Response :=
  match st.files.find? (fun f => decide (f.filename = fn)) with
  | none => .notFound "File not found"
  | some fd => .fileOk fd.contentType

/-! ## Routing -/

/-- HTTP methods used by the route tables. -/
inductive Method where
  | get | post | put | patch | delete
deriving DecidableEq, Repr

/-- Which registered handler (or the catch-all) an incoming request reaches. -/
inductive RouteMatch where
  | create | view | fileByName | status | editText | softDelete
  | restore | permanentDelete | completedList | indexPage | catchAll
deriving DecidableEq, Repr

/-- Express-style match of a route with one trailing `:param` segment: the
path extends the prefix by one non-empty segment containing no `/`. -/
def paramSegment (pre p : String) : Bool :=
  p.data.take pre.data.length == pre.data &&
  decide (pre.data.length < p.data.length) &&
  !(p.data.drop pre.data.length).contains '/'

/-- The route table of `server.js`, in registration order, ending in the 404
catch-all. -/
def routeServerJs (m : Method) (p : String) : RouteMatch :=
  if m = .post ∧ p = "/api/tasks/create" then .create
  else if m = .get ∧ p = "/api/tasks/view" then .view
  else if m = .patch ∧ p = "/api/tasks/status" then .status
  else if m = .put ∧ paramSegment "/api/tasks/" p = true then .editText
  else if m = .delete ∧ paramSegment "/api/tasks/delete/" p = true then .softDelete
  else if m = .patch ∧ paramSegment "/api/tasks/restore/" p = true then .restore
  else if m = .delete ∧ paramSegment "/api/tasks/permanent-delete/" p = true then
    .permanentDelete
  else if m = .get ∧ p = "/" then .indexPage
  else .catchAll

/-- The route table of the GridFS variant, in registration order (it adds
`GET /api/tasks/file/:filename`), ending in the 404 catch-all. -/
def routeGridfs (m : Method) (p : String) : RouteMatch :=
  if m = .post ∧ p = "/api/tasks/create" then .create
  else if m = .get ∧ p = "/api/tasks/view" then .view
  else if m = .get ∧ paramSegment "/api/tasks/file/" p = true then .fileByName
  else if m = .patch ∧ p = "/api/tasks/status" then .status
  else if m = .put ∧ paramSegment "/api/tasks/" p = true then .editText
  else if m = .delete ∧ paramSegment "/api/tasks/delete/" p = true then .softDelete
  else if m = .patch ∧ paramSegment "/api/tasks/restore/" p = true then .restore
  else if m = .delete ∧ paramSegment "/api/tasks/permanent-delete/" p = true then
    .permanentDelete
  else if m = .get ∧ p = "/" then .indexPage
  else .catchAll

/-- Modelled from the spec: the third ("timestamp-only, no-attachment")
server variant is not among the source files under `src/`; the spec's route
table says it alone exposes `GET /completed`, answering 200 with the array of
completed tasks.  Its remaining routes follow the common route table. -/
def routeNoAttach (m : Method) (p : String) : RouteMatch :=
  if m = .post ∧ p = "/api/tasks/create" then .create
  else if m = .get ∧ p = "/api/tasks/view" then .view
  else if m = .get ∧ p = "/api/tasks/completed" then .completedList
  else if m = .patch ∧ p = "/api/tasks/status" then .status
  else if m = .put ∧ paramSegment "/api/tasks/" p = true then .editText
  else if m = .delete ∧ paramSegment "/api/tasks/delete/" p = true then .softDelete
  else if m = .get ∧ p = "/" then .indexPage
  else .catchAll

/-- Modelled from the spec: the handler behind `GET /api/tasks/completed` in
the missing variant returns 200 with the array of completed tasks. -/
def completedRouteHandler (store : List Task) : Response :=
  .okList (store.filter (fun t => t.completed))

/-! ## Store lemmas -/

lemma applyUpdate_id (u : TaskUpdate) (t : Task) : (applyUpdate u t).id = t.id := rfl

lemma matchesFilter_active (t : Task) :
    matchesFilter { deletedAtNull := some true } t = true ↔ t.deletedAt = none := by
  simp [matchesFilter]

lemma matchesFilter_active_id (i : Nat) (t : Task) :
    matchesFilter { idEq := some i, deletedAtNull := some true } t = true ↔
      t.id = i ∧ t.deletedAt = none := by
  simp [matchesFilter]

lemma matchesFilter_trashed_id (i : Nat) (t : Task) :
    matchesFilter { idEq := some i, deletedAtNull := some false } t = true ↔
      t.id = i ∧ t.deletedAt ≠ none := by
  simp [matchesFilter]

lemma findOneAndUpdate_of_no_match (f : MongoFilter) (u : TaskUpdate) :
    ∀ store : List Task, (∀ v ∈ store, matchesFilter f v = false) →
      findOneAndUpdate f u store = (none, store)
  | [], _ => rfl
  | t :: rest, h => by
    have ht := h t (List.mem_cons_self t rest)
    have ih := findOneAndUpdate_of_no_match f u rest
      (fun v hv => h v (List.mem_cons_of_mem t hv))
    simp [findOneAndUpdate, ht, ih]

lemma findOneAndUpdate_unique_match (f : MongoFilter) (u : TaskUpdate) (i : Nat)
    (hf : ∀ v : Task, matchesFilter f v = true → v.id = i) :
    ∀ (store : List Task) (t : Task), (store.map Task.id).Nodup → t ∈ store →
      matchesFilter f t = true →
      findOneAndUpdate f u store =
        (some (applyUpdate u t),
         store.map (fun v => if v.id = i then applyUpdate u v else v))
  | [], t, _, ht, _ => absurd ht (List.not_mem_nil t)
  | v :: rest, t, hnd, ht, hmt => by
    rw [List.map_cons] at hnd
    have hnd1 := List.nodup_cons.mp hnd
    by_cases hv : matchesFilter f v = true
    · have hvid : v.id = i := hf v hv
      have htv : t = v := by
        rcases List.mem_cons.mp ht with h | h
        · exact h
        · have hmem : t.id ∈ List.map Task.id rest := List.mem_map_of_mem Task.id h
          rw [hf t hmt, ← hvid] at hmem
          exact absurd hmem hnd1.1
      subst htv
      have hrest : ∀ w ∈ rest, (if w.id = i then applyUpdate u w else w) = w := by
        intro w hw
        have : w.id ≠ i := fun hwi =>
          hnd1.1 (hvid ▸ hwi ▸ List.mem_map_of_mem Task.id hw)
        simp [this]
      simp [findOneAndUpdate, hv, hvid, List.map_congr_left hrest]
    · have htne : t ≠ v := fun h => hv (h ▸ hmt)
      have htrest : t ∈ rest := (List.mem_cons.mp ht).resolve_left htne
      have hvid : v.id ≠ i := by
        intro hvi
        exact hnd1.1 (hvi ▸ (hf t hmt) ▸ List.mem_map_of_mem Task.id htrest)
      have ih := findOneAndUpdate_unique_match f u i hf rest t hnd1.2 htrest hmt
      simp [findOneAndUpdate, hv, hvid, ih]

lemma deleteOne_of_no_match {α : Type} (p : α → Bool) :
    ∀ l : List α, (∀ x ∈ l, p x = false) → deleteOne p l = (0, l)
  | [], _ => rfl
  | y :: ys, h => by
    have hy := h y (List.mem_cons_self y ys)
    have ih := deleteOne_of_no_match p ys (fun x hx => h x (List.mem_cons_of_mem y hx))
    simp [deleteOne, hy, ih]

lemma mem_of_mem_deleteOne {α : Type} (p : α → Bool) :
    ∀ l : List α, ∀ x ∈ (deleteOne p l).2, x ∈ l
  | y :: ys, x, hx => by
    by_cases hy : p y = true
    · simp only [deleteOne, hy, if_pos] at hx
      exact List.mem_cons_of_mem y hx
    · simp only [deleteOne, hy, if_neg, Bool.not_eq_true] at hx
      rcases List.mem_cons.mp hx with h | h
      · exact h ▸ List.mem_cons_self y ys
      · exact List.mem_cons_of_mem y (mem_of_mem_deleteOne p ys x h)

lemma deleteOne_not_mem_sat {α : Type} (p : α → Bool) :
    ∀ l : List α, ∀ x ∈ l, x ∉ (deleteOne p l).2 → p x = true
  | y :: ys, x, hx, hnx => by
    by_cases hy : p y = true
    · simp only [deleteOne, hy, if_pos] at hnx
      rcases List.mem_cons.mp hx with h | h
      · exact h ▸ hy
      · exact absurd h hnx
    · simp only [deleteOne, hy, if_neg, Bool.not_eq_true] at hnx
      rcases List.mem_cons.mp hx with h | h
      · exact absurd (h ▸ List.mem_cons_self y (deleteOne p ys).2) hnx
      · exact deleteOne_not_mem_sat p ys x h
          (fun hm => hnx (List.mem_cons_of_mem y hm))

lemma deleteOne_proj_ne {α β : Type} [DecidableEq β] (f : α → β) :
    ∀ (l : List α) (x : α), (l.map f).Nodup →
      ∀ g ∈ (deleteOne (fun y => decide (f y = f x)) l).2, f g ≠ f x
  | y :: ys, x, hnd, g, hg => by
    rw [List.map_cons] at hnd
    have hnd1 := List.nodup_cons.mp hnd
    by_cases hy : f y = f x
    · simp only [deleteOne, hy] at hg
      simp only [decide_eq_true_eq, if_pos trivial, decide_eq_true (Eq.refl (f x))] at hg
      intro hgx
      exact hnd1.1 (hy ▸ hgx ▸ List.mem_map_of_mem f hg)
    · simp [deleteOne, hy] at hg
      rcases hg with h | h
      · exact h ▸ hy
      · exact deleteOne_proj_ne f ys x hnd1.2 g h

lemma find?_of_unique {α : Type} (p : α → Bool) :
    ∀ (l : List α) (x : α), x ∈ l → p x = true →
      (∀ y ∈ l, p y = true → y = x) → l.find? p = some x
  | y :: ys, x, hx, hpx, huniq => by
    by_cases hy : p y = true
    · rw [List.find?_cons_of_pos _ hy]
      exact congrArg some (huniq y (List.mem_cons_self y ys) hy)
    · rw [List.find?_cons_of_neg _ (by simpa using hy)]
      have hxy : x ≠ y := fun h => hy (h ▸ hpx)
      exact find?_of_unique p ys x ((List.mem_cons.mp hx).resolve_left hxy) hpx
        (fun z hz hpz => huniq z (List.mem_cons_of_mem y hz) hpz)

/-! ## Claim-side predicates and sample data -/

/-- The status predicates exactly as the specification words them: `all` is
`deletedAt == null`; `completed` is `completed == true` and `deletedAt == null`;
`incomplete` is `completed == false` and `deletedAt == null`; `trashed` is
`deletedAt != null`. -/
def statusSpecPred (status : String) (t : Task) : Bool :=
  if status = "all" then decide (t.deletedAt = none)
  else if status = "completed" then t.completed && decide (t.deletedAt = none)
  else if status = "incomplete" then !t.completed && decide (t.deletedAt = none)
  else decide (t.deletedAt ≠ none)

/-- A sample active incomplete task used by the witnesses. -/
def t0 : Task :=
  { id := 1, text := "alpha", attachment := none, completed := false,
    createdAt := 4, deletedAt := none }

/-- A sample active completed task used by the witnesses. -/
def t1 : Task :=
  { id := 2, text := "beta", attachment := none, completed := true,
    createdAt := 7, deletedAt := none }

/-- A sample trashed task used by the witnesses. -/
def t2 : Task :=
  { id := 3, text := "gamma", attachment := none, completed := true,
    createdAt := 9, deletedAt := some 11 }

/-- A sample store used by the witnesses. -/
def sampleStore : List Task := [t0, t1, t2]

/-! ## C1 -/

lemma buildFilter_all_default (s : String) (h1 : s ≠ "completed")
    (h2 : s ≠ "incomplete") (h3 : s ≠ "trashed") :
    buildFilter s = { deletedAtNull := some true } := by
  simp [buildFilter, h1, h2, h3]

lemma view_perm_filter (store : List Task) (status : Option String) :
    List.Perm (viewTasks store status)
      (store.filter (matchesFilter (buildFilter (status.getD "all")))) :=
  List.perm_insertionSort createdDesc _

lemma view_sorted (store : List Task) (status : Option String) :
    List.Sorted createdDesc (viewTasks store status) :=
  List.sorted_insertionSort createdDesc _

/-- C1: for every store and every status in the set all / completed /
incomplete / trashed, the view operation returns exactly the tasks satisfying
that status's predicate (as the specification words it), ordered by
`createdAt` descending. -/
theorem c1_view_exact_and_sorted (store : List Task) (status : String)
    (h : status = "all" ∨ status = "completed" ∨ status = "incomplete" ∨
      status = "trashed") :
    List.Perm (viewTasks store (some status)) (store.filter (statusSpecPred status)) ∧
    List.Sorted createdDesc (viewTasks store (some status)) := by
  refine ⟨?_, view_sorted store (some status)⟩
  have hperm := view_perm_filter store (some status)
  have hfeq : store.filter (matchesFilter (buildFilter status)) =
      store.filter (statusSpecPred status) := by
    apply List.filter_congr
    intro t _
    rcases h with h | h | h | h <;> subst h <;> cases t.completed <;>
      simp [matchesFilter, buildFilter, statusSpecPred]
  simpa [Option.getD, hfeq] using hperm

/-- Witness for C1 at a concrete store and the `completed` status. -/
theorem c1_view_exact_and_sorted_witness :
    List.Perm (viewTasks sampleStore (some "completed"))
      (sampleStore.filter (statusSpecPred "completed")) ∧
    List.Sorted createdDesc (viewTasks sampleStore (some "completed")) :=
  c1_view_exact_and_sorted sampleStore "completed" (Or.inr (Or.inl rfl))

/-! ## C10 -/

/-- C10: for every status value outside completed / incomplete / trashed —
including an absent parameter and arbitrary unknown strings — GET /view does
not reject the request: it answers 200 with exactly the active tasks,
identically to `status=all`. -/
theorem c10_unknown_status_acts_as_all (store : List Task) (status : String)
    (h1 : status ≠ "completed") (h2 : status ≠ "incomplete")
    (h3 : status ≠ "trashed") :
    viewRoute store (some status) = viewRoute store none ∧
    viewRoute store (some status) = viewRoute store (some "all") ∧
    (viewRoute store (some status)).statusCode = 200 ∧
    List.Perm (viewTasks store (some status))
      (store.filter (fun t => decide (t.deletedAt = none))) := by
  have hb : buildFilter status = { deletedAtNull := some true } :=
    buildFilter_all_default status h1 h2 h3
  have hall : buildFilter "all" = { deletedAtNull := some true } := by
    simp [buildFilter]
  refine ⟨?_, ?_, rfl, ?_⟩
  · simp [viewRoute, viewTasks, hb, hall]
  · simp [viewRoute, viewTasks, hb, hall]
  · have hperm := view_perm_filter store (some status)
    have hfeq : store.filter (matchesFilter (buildFilter status)) =
        store.filter (fun t => decide (t.deletedAt = none)) := by
      apply List.filter_congr
      intro t _
      simp [hb, matchesFilter]
    simpa [Option.getD, hfeq] using hperm

/-- Witness for C10 at a concrete store and the unknown status `banana`. -/
theorem c10_unknown_status_acts_as_all_witness :
    viewRoute sampleStore (some "banana") = viewRoute sampleStore none ∧
    viewRoute sampleStore (some "banana") = viewRoute sampleStore (some "all") ∧
    (viewRoute sampleStore (some "banana")).statusCode = 200 ∧
    List.Perm (viewTasks sampleStore (some "banana"))
      (sampleStore.filter (fun t => decide (t.deletedAt = none))) :=
  c10_unknown_status_acts_as_all sampleStore "banana"
    (by decide) (by decide) (by decide)

/-! ## C2 -/

/-- The task document `Task.create` inserts for a trimmed non-empty text. -/
def mkNewTask (now newId : Nat) (s : String) (file : Option String) : Task :=
  { id := newId, text := jsTrim s, attachment := file, completed := false,
    createdAt := now, deletedAt := none }

/-- C2: when the create request's text is absent or trims to the empty string
both create handlers answer 400 and leave the store unchanged; when the
trimmed text is non-empty (and the store does not fail) they answer 201 with
the created task, which is appended to the store. -/
theorem c2_create_validation (now newId : Nat) (text : Option String)
    (file : Option String) (storeFailure : Option String) (store : List Task) :
    ((text = none ∨ jsTrim (text.getD "") = "") →
      createTask now newId text file storeFailure store =
          (.badRequest "Task text required", store) ∧
      createTaskGridfs now newId text file storeFailure store =
          (.badRequest "Task text required", store)) ∧
    (∀ s : String, text = some s → jsTrim s ≠ "" → storeFailure = none →
      createTask now newId text file storeFailure store =
          (.created (mkNewTask now newId s file), store ++ [mkNewTask now newId s file]) ∧
      createTaskGridfs now newId text file storeFailure store =
          (.created (mkNewTask now newId s file), store ++ [mkNewTask now newId s file])) := by
  constructor
  · intro h
    match text with
    | none => exact ⟨rfl, rfl⟩
    | some s =>
      have hs : jsTrim s = "" := by simpa using h
      simp [createTask, createTaskGridfs, hs]
  · intro s hs hne hsf
    subst hs
    subst hsf
    simp [createTask, createTaskGridfs, hne, mkNewTask]

/-- Witness for C2 at a concrete creation request. -/
theorem c2_create_validation_witness :
    createTask 5 9 (some " hi ") none none [] =
        (.created (mkNewTask 5 9 " hi " none), [] ++ [mkNewTask 5 9 " hi " none]) ∧
    createTaskGridfs 5 9 (some " hi ") none none [] =
        (.created (mkNewTask 5 9 " hi " none), [] ++ [mkNewTask 5 9 " hi " none]) :=
  (c2_create_validation 5 9 (some " hi ") none none []).2 " hi " rfl (by decide) rfl

/-! ## C6 -/

/-- C6: the plain variant's permanent delete answers 404 and leaves the store
unchanged when every task carrying the id is active (or no such record
exists); records are removed only when their `deletedAt` is non-null. -/
theorem c6_permanent_delete_only_trashed (store : List Task) (i : Nat) :
    ((∀ t ∈ store, t.id = i → t.deletedAt = none) →
      permanentDeleteTask (some i) store =
        (.notFound "Task not found or not trashed", store)) ∧
    (∀ t ∈ store, t ∉ (permanentDeleteTask (some i) store).2 →
      t.deletedAt ≠ none) := by
  constructor
  · intro h
    have hall : ∀ t ∈ store,
        (fun t => decide (t.id = i) && decide (t.deletedAt ≠ none)) t = false := by
      intro t htm
      by_cases hid : t.id = i
      · simp [hid, h t htm hid]
      · simp [hid]
    have hdel := deleteOne_of_no_match _ store hall
    simp only [permanentDeleteTask]
    rw [hdel]
    rfl
  · intro t htm hnot
    have h2 : (permanentDeleteTask (some i) store).2 =
        (deleteOne (fun t => decide (t.id = i) && decide (t.deletedAt ≠ none)) store).2 := by
      simp only [permanentDeleteTask]
      rcases hd : deleteOne (fun t => decide (t.id = i) && decide (t.deletedAt ≠ none))
        store with ⟨c, s1⟩
      rw [hd]
      by_cases hc : c = 0 <;> simp [hc]
    rw [h2] at hnot
    have hp := deleteOne_not_mem_sat _ store t htm hnot
    simp only [Bool.and_eq_true, decide_eq_true_eq] at hp
    exact hp.2

/-- Witness for C6 at a store holding one active task. -/
theorem c6_permanent_delete_only_trashed_witness :
    permanentDeleteTask (some 1) [t0] =
      (.notFound "Task not found or not trashed", [t0]) :=
  (c6_permanent_delete_only_trashed [t0] 1).1 (by decide)

/-! ## C9 -/

/-- C9 counterexample: in `server.js` the 500 body carries the internal
error's own message, so two runs of the create handler that differ only in
the internal store error produce different 500 bodies. -/
theorem c9_counterexample :
    (createTask 0 9 (some "hi") none (some "socket hang up") []).1 ≠
      (createTask 0 9 (some "hi") none (some "disk full") []).1 ∧
    (createTask 0 9 (some "hi") none (some "socket hang up") []).1 =
      .serverError "socket hang up" := by
  decide

/-- The API handlers of `server.js`, one constructor per try/catch block. -/
inductive PlainHandler where
  | create | view | toggleStatus | editText | softDelete | restore
  | permanentDelete
deriving DecidableEq, Repr

/-- The catch clause of each `server.js` handler: all seven answer
`res.status(500).json(\x7b error: err.message \x7d)`, placing the caught internal
error's own message in the 500 body. -/
def plainCatchResponse (h : PlainHandler) (errMessage : String) : Response :=
  match h with
  | .create => .serverError errMessage
  | .view => .serverError errMessage
  | .toggleStatus => .serverError errMessage
  | .editText => .serverError errMessage
  | .softDelete => .serverError errMessage
  | .restore => .serverError errMessage
  | .permanentDelete => .serverError errMessage

/-- The API handlers of the GridFS variant, one constructor per try/catch
block. -/
inductive GridfsHandler where
  | create | view | fileByName | toggleStatus | editText | softDelete
  | restore | permanentDelete
deriving DecidableEq, Repr

/-- The catch clause of each GridFS-variant handler: `create` answers the
fixed body `"Task creation failed"` (logging the error server-side only);
every other handler answers `res.status(500).json(\x7b error: err.message \x7d)`. -/
def gridfsCatchResponse (h : GridfsHandler) (errMessage : String) : Response :=
  match h with
  | .create => .serverError "Task creation failed"
  | .view => .serverError errMessage
  | .fileByName => .serverError errMessage
  | .toggleStatus => .serverError errMessage
  | .editText => .serverError errMessage
  | .softDelete => .serverError errMessage
  | .restore => .serverError errMessage
  | .permanentDelete => .serverError errMessage

/-- C9 amended: only the GridFS variant's create handler returns a fixed
generic 500 body, independent of which internal error occurred; every other
catch clause of both variants — the plain variant's seven handlers and the
GridFS variant's view, file, status-toggle, text-edit, soft-delete, restore
and permanent-delete handlers — places the internal error's own message in
the 500 body, so two runs with different internal errors produce different
500 bodies there. -/
theorem c9_amended_500_bodies (m1 m2 : String) (hne : m1 ≠ m2)
    (now newId : Nat) (s : String) (hs : jsTrim s ≠ "")
    (file : Option String) (store : List Task) :
    (∀ h : PlainHandler, plainCatchResponse h m1 = .serverError m1 ∧
        plainCatchResponse h m1 ≠ plainCatchResponse h m2) ∧
    (∀ h : GridfsHandler, h ≠ .create →
        gridfsCatchResponse h m1 = .serverError m1 ∧
        gridfsCatchResponse h m1 ≠ gridfsCatchResponse h m2) ∧
    gridfsCatchResponse .create m1 = gridfsCatchResponse .create m2 ∧
    (createTaskGridfs now newId (some s) file (some m1) store).1 =
      (createTaskGridfs now newId (some s) file (some m2) store).1 ∧
    (createTaskGridfs now newId (some s) file (some m1) store).1 =
      .serverError "Task creation failed" ∧
    (createTask now newId (some s) file (some m1) store).1 = .serverError m1 := by
  refine ⟨?_, ?_, rfl, ?_, ?_, ?_⟩
  · intro h
    cases h <;> simp [plainCatchResponse, hne]
  · intro h hh
    cases h
    · exact absurd rfl hh
    all_goals simp [gridfsCatchResponse, hne]
  · simp [createTaskGridfs, hs]
  · simp [createTaskGridfs, hs]
  · simp [createTask, hs]

/-- Witness for the amended C9 at two concrete internal errors. -/
theorem c9_amended_500_bodies_witness :
    (∀ h : PlainHandler,
        plainCatchResponse h "socket hang up" = .serverError "socket hang up" ∧
        plainCatchResponse h "socket hang up" ≠ plainCatchResponse h "disk full") ∧
    (∀ h : GridfsHandler, h ≠ .create →
        gridfsCatchResponse h "socket hang up" = .serverError "socket hang up" ∧
        gridfsCatchResponse h "socket hang up" ≠ gridfsCatchResponse h "disk full") ∧
    gridfsCatchResponse .create "socket hang up" =
      gridfsCatchResponse .create "disk full" ∧
    (createTaskGridfs 0 9 (some "hi") none (some "socket hang up") []).1 =
      (createTaskGridfs 0 9 (some "hi") none (some "disk full") []).1 ∧
    (createTaskGridfs 0 9 (some "hi") none (some "socket hang up") []).1 =
      .serverError "Task creation failed" ∧
    (createTask 0 9 (some "hi") none (some "socket hang up") []).1 =
      .serverError "socket hang up" :=
  c9_amended_500_bodies "socket hang up" "disk full" (by decide) 0 9 "hi"
    (by decide) none []

/-! ## C3 -/

/-- C3 counterexample: a PUT whose body lacks the text field is not answered
400 — on an active matching task the handler answers 200 with the task
unchanged, because Mongoose strips the undefined `text` from the update. -/
theorem c3_counterexample :
    (putTask (some 1) none [t0]).1.statusCode ≠ 400 ∧
    putTask (some 1) none [t0] = (.ok t0, [t0]) := by
  decide

/-- C3 amended: the PUT handler never answers 400.  Text trimming to the
empty string yields 500 (the ValidationError raised by `runValidators` is
caught by the generic catch); otherwise an id matching no active task yields
404 with the store unchanged, and an active match yields 200 — with the task
unchanged when the text is absent, and with the trimmed text written
otherwise. -/
theorem c3_amended_put (i : Nat) (text : Option String) (store : List Task) :
    (∀ idReq : Option Nat, (putTask idReq text store).1.statusCode ≠ 400) ∧
    (∀ s, text = some s → jsTrim s = "" →
      putTask (some i) text store = (.serverError validationErrorMessage, store)) ∧
    (text.map jsTrim ≠ some "" →
      (∀ t ∈ store, ¬(t.id = i ∧ t.deletedAt = none)) →
      putTask (some i) text store = (.notFound "Task not found", store)) ∧
    ((store.map Task.id).Nodup → ∀ t ∈ store, t.id = i → t.deletedAt = none →
      (text = none → putTask (some i) text store = (.ok t, store)) ∧
      (∀ s, text = some s → jsTrim s ≠ "" →
        putTask (some i) text store =
          (.ok { t with text := jsTrim s },
           store.map (fun v => if v.id = i then { v with text := jsTrim s } else v)))) := by
  refine ⟨?_, ?_, ?_, ?_⟩
  · intro idReq
    match idReq with
    | none => simp [putTask, Response.statusCode]
    | some j =>
      by_cases hemp : text.map jsTrim = some ""
      · simp [putTask, hemp, Response.statusCode]
      · rcases hfd : findOneAndUpdate { idEq := some j, deletedAtNull := some true }
            { text := text.map jsTrim } store with ⟨r, s1⟩
        cases r <;> simp [putTask, hemp, hfd, Response.statusCode]
  · intro s hs hemp
    subst hs
    simp [putTask, hemp]
  · intro hne hnom
    have hall : ∀ v ∈ store,
        matchesFilter { idEq := some i, deletedAtNull := some true } v = false := by
      intro v hv
      apply Bool.eq_false_iff.mpr
      intro hmv
      exact hnom v hv ((matchesFilter_active_id i v).mp hmv)
    have hfd := findOneAndUpdate_of_no_match
      { idEq := some i, deletedAtNull := some true } { text := text.map jsTrim } store hall
    simp [putTask, hne, hfd]
  · intro hnd t htm hid ha
    have hfkey : ∀ v : Task,
        matchesFilter { idEq := some i, deletedAtNull := some true } v = true → v.id = i :=
      fun v hv => ((matchesFilter_active_id i v).mp hv).1
    have hmt : matchesFilter { idEq := some i, deletedAtNull := some true } t = true :=
      (matchesFilter_active_id i t).mpr ⟨hid, ha⟩
    constructor
    · intro htt
      subst htt
      have hfd := findOneAndUpdate_unique_match
        { idEq := some i, deletedAtNull := some true } { text := none } i hfkey
        store t hnd htm hmt
      have happ : ∀ v : Task, applyUpdate { text := none } v = v := fun _ => rfl
      simp only [happ, ite_self] at hfd
      simp [putTask, hfd]
    · intro s hs hnem
      subst hs
      have hfd := findOneAndUpdate_unique_match
        { idEq := some i, deletedAtNull := some true } { text := some (jsTrim s) } i hfkey
        store t hnd htm hmt
      have happ : ∀ v : Task,
          applyUpdate { text := some (jsTrim s) } v = { v with text := jsTrim s } :=
        fun _ => rfl
      simp only [happ] at hfd
      simp [putTask, hnem, hfd]

/-- Witness for the amended C3: a successful text edit at a concrete store. -/
theorem c3_amended_put_witness :
    putTask (some 1) (some " buy oat milk ") [t0] =
      (.ok { t0 with text := jsTrim " buy oat milk " },
       [t0].map (fun v => if v.id = 1 then { v with text := jsTrim " buy oat milk " } else v)) :=
  ((c3_amended_put 1 (some " buy oat milk ") [t0]).2.2.2 (by decide) t0
    (by decide) rfl rfl).2 " buy oat milk " rfl (by decide)

/-! ## C4 -/

/-- C4 counterexample: a status-toggle body whose id fails ObjectId casting
is answered 500 with the cast error's message, not 400, and nothing is
mutated. -/
theorem c4_counterexample :
    (patchStatus .malformed (some true) [t0]).1.statusCode ≠ 400 ∧
    patchStatus .malformed (some true) [t0] = (.serverError castErrorMessage, [t0]) := by
  decide

/-- C4 amended: the status handler never answers 400: a malformed id yields
500 with the cast error, an id matching no active task yields 404 with the
store unmutated, and an active match yields 200 with the updated task (a
missing id field is likewise not rejected). -/
theorem c4_amended_patch_status (i : Nat) (c : Option Bool) (store : List Task) :
    (∀ idReq : BodyId, (patchStatus idReq c store).1.statusCode ≠ 400) ∧
    (patchStatus .malformed c store = (.serverError castErrorMessage, store)) ∧
    ((∀ t ∈ store, ¬(t.id = i ∧ t.deletedAt = none)) →
      patchStatus (.given i) c store = (.notFound "Task not found", store)) ∧
    ((store.map Task.id).Nodup → ∀ t ∈ store, t.id = i → t.deletedAt = none →
      patchStatus (.given i) c store =
        (.ok (applyUpdate { completed := c } t),
         store.map (fun v => if v.id = i then applyUpdate { completed := c } v else v))) := by
  refine ⟨?_, rfl, ?_, ?_⟩
  · intro idReq
    match idReq with
    | .malformed => simp [patchStatus, Response.statusCode]
    | .missing =>
      rcases hfd : findOneAndUpdate { deletedAtNull := some true }
          { completed := c } store with ⟨r, s1⟩
      cases r <;> simp [patchStatus, hfd, Response.statusCode]
    | .given j =>
      rcases hfd : findOneAndUpdate { idEq := some j, deletedAtNull := some true }
          { completed := c } store with ⟨r, s1⟩
      cases r <;> simp [patchStatus, hfd, Response.statusCode]
  · intro hnom
    have hall : ∀ v ∈ store,
        matchesFilter { idEq := some i, deletedAtNull := some true } v = false := by
      intro v hv
      apply Bool.eq_false_iff.mpr
      intro hmv
      exact hnom v hv ((matchesFilter_active_id i v).mp hmv)
    have hfd := findOneAndUpdate_of_no_match
      { idEq := some i, deletedAtNull := some true } { completed := c } store hall
    simp [patchStatus, hfd]
  · intro hnd t htm hid ha
    have hfd := findOneAndUpdate_unique_match
      { idEq := some i, deletedAtNull := some true } { completed := c } i
      (fun v hv => ((matchesFilter_active_id i v).mp hv).1)
      store t hnd htm ((matchesFilter_active_id i t).mpr ⟨hid, ha⟩)
    simp [patchStatus, hfd]

/-- Witness for the amended C4: a successful toggle at a concrete store. -/
theorem c4_amended_patch_status_witness :
    patchStatus (.given 1) (some true) [t0] =
      (.ok (applyUpdate { completed := some true } t0),
       [t0].map (fun v => if v.id = 1 then applyUpdate { completed := some true } v else v)) :=
  (c4_amended_patch_status 1 (some true) [t0]).2.2.2 (by decide) t0 (by decide) rfl rfl

/-! ## C8 -/

/-- C8: in the spec-modelled no-attachment variant a GET for
`/api/tasks/completed` reaches a dedicated route answering 200 with the array
of completed tasks, while in both variants present under `src/` the same
request falls through to the 404 catch-all. -/
theorem c8_completed_route (store : List Task) :
    routeNoAttach .get "/api/tasks/completed" = .completedList ∧
    completedRouteHandler store = .okList (store.filter (fun t => t.completed)) ∧
    (completedRouteHandler store).statusCode = 200 ∧
    routeServerJs .get "/api/tasks/completed" = .catchAll ∧
    routeGridfs .get "/api/tasks/completed" = .catchAll :=
  ⟨by decide, rfl, rfl, by decide, by decide⟩

/-! ## C5 -/

lemma buildFilter_completed :
    buildFilter "completed" = { completed := some true, deletedAtNull := some true } := by
  decide

lemma buildFilter_incomplete :
    buildFilter "incomplete" = { completed := some false, deletedAtNull := some true } := by
  decide

lemma matches_buildFilter_active (s : String) (hs : s ≠ "trashed") (u : Task) :
    matchesFilter (buildFilter s) u = true → u.deletedAt = none := by
  by_cases h1 : s = "completed"
  · intro h
    rw [h1, buildFilter_completed] at h
    simp [matchesFilter] at h
    exact h.2
  · by_cases h2 : s = "incomplete"
    · intro h
      rw [h2, buildFilter_incomplete] at h
      simp [matchesFilter] at h
      exact h.2
    · intro h
      rw [buildFilter_all_default s h1 h2 hs] at h
      exact (matchesFilter_active u).mp h

lemma map_update_id_preserved (f : Task → Task) (hf : ∀ v, (f v).id = v.id)
    (store : List Task) : (store.map f).map Task.id = store.map Task.id := by
  rw [List.map_map]
  exact List.map_congr_left (fun v _ => hf v)

lemma softdelete_restore_maps (store : List Task) (t : Task) (now : Nat)
    (hnd : (store.map Task.id).Nodup) (ht : t ∈ store) (ha : t.deletedAt = none) :
    (store.map (fun v => if v.id = t.id then { v with deletedAt := some now } else v)).map
      (fun v => if v.id = t.id then { v with deletedAt := none } else v) = store := by
  rw [List.map_map]
  have hinj := List.inj_on_of_nodup_map hnd
  refine (List.map_congr_left ?_).trans (List.map_id store)
  intro v hv
  by_cases hvi : v.id = t.id
  · have hvt : v = t := hinj hv ht (by rw [hvi])
    subst hvt
    have htt : ({ v with deletedAt := none } : Task) = v := by rw [← ha]
    simp [hvi, htt]
  · simp [hvi]

/-- C5: soft-deleting an active task removes it from every non-trashed view
(in particular all, completed and incomplete) and makes it appear in the
trashed view; restoring it afterwards answers 200 with the original task and
returns the store exactly to its previous state (`deletedAt` null again),
reversing the membership change. -/
theorem c5_softdelete_restore_roundtrip (store : List Task) (t : Task) (now : Nat)
    (hnd : (store.map Task.id).Nodup) (ht : t ∈ store) (ha : t.deletedAt = none) :
    (softDeleteTask now (some t.id) store).1 =
        .okMsg "Moved to trash" { t with deletedAt := some now } ∧
    (∀ s : String, s ≠ "trashed" →
        ∀ u ∈ viewTasks (softDeleteTask now (some t.id) store).2 (some s),
          u.id ≠ t.id) ∧
    { t with deletedAt := some now } ∈
        viewTasks (softDeleteTask now (some t.id) store).2 (some "trashed") ∧
    restoreTask (some t.id) (softDeleteTask now (some t.id) store).2 =
        (.okMsg "Task restored" t, store) := by
  have hinj := List.inj_on_of_nodup_map hnd
  have hfd := findOneAndUpdate_unique_match
    { idEq := some t.id, deletedAtNull := some true } { deletedAt := some (some now) } t.id
    (fun v hv => ((matchesFilter_active_id t.id v).mp hv).1) store t hnd ht
    ((matchesFilter_active_id t.id t).mpr ⟨rfl, ha⟩)
  have happ : ∀ v : Task,
      applyUpdate { deletedAt := some (some now) } v = { v with deletedAt := some now } :=
    fun _ => rfl
  simp only [happ] at hfd
  have hsd : softDeleteTask now (some t.id) store =
      (.okMsg "Moved to trash" { t with deletedAt := some now },
       store.map (fun v => if v.id = t.id then { v with deletedAt := some now } else v)) := by
    simp [softDeleteTask, hfd]
  refine ⟨by rw [hsd], ?_, ?_, ?_⟩
  · intro s hs u hu
    rw [hsd] at hu
    simp only [viewTasks, Option.getD, List.mem_insertionSort, List.mem_filter] at hu
    obtain ⟨humem, humatch⟩ := hu
    have hud : u.deletedAt = none := matches_buildFilter_active s hs u humatch
    intro hui
    obtain ⟨v, hv, huv⟩ := List.mem_map.mp humem
    have hgid : (if v.id = t.id then { v with deletedAt := some now } else v).id = v.id := by
      by_cases h : v.id = t.id <;> simp [h]
    have hvid : v.id = t.id := by rw [← hgid, huv]; exact hui
    have hvt : v = t := hinj hv ht (by rw [hvid])
    subst hvt
    rw [← huv] at hud
    simp at hud
  · have hbt : buildFilter "trashed" = { deletedAtNull := some false } := by decide
    rw [hsd]
    simp only [viewTasks, Option.getD, hbt, List.mem_insertionSort, List.mem_filter]
    refine ⟨List.mem_map.mpr ⟨t, ht, by simp⟩, by simp [matchesFilter]⟩
  · rw [hsd]
    have hfid : ∀ v : Task,
        ((fun v => if v.id = t.id then { v with deletedAt := some now } else v) v).id = v.id := by
      intro v
      by_cases h : v.id = t.id <;> simp [h]
    have hnd1 : (((store.map
        (fun v => if v.id = t.id then { v with deletedAt := some now } else v))).map
        Task.id).Nodup := by
      rw [map_update_id_preserved _ hfid store]
      exact hnd
    have htmem : ({ t with deletedAt := some now } : Task) ∈
        store.map (fun v => if v.id = t.id then { v with deletedAt := some now } else v) :=
      List.mem_map.mpr ⟨t, ht, by simp⟩
    have hfd2 := findOneAndUpdate_unique_match
      { idEq := some t.id, deletedAtNull := some false } { deletedAt := some none } t.id
      (fun v hv => ((matchesFilter_trashed_id t.id v).mp hv).1)
      _ { t with deletedAt := some now } hnd1 htmem
      ((matchesFilter_trashed_id t.id _).mpr ⟨rfl, by simp⟩)
    have happ2 : ∀ v : Task,
        applyUpdate { deletedAt := some none } v = { v with deletedAt := none } :=
      fun _ => rfl
    simp only [happ2] at hfd2
    have hmap := softdelete_restore_maps store t now hnd ht ha
    rw [hmap] at hfd2
    have hres : ({ t with deletedAt := (none : Option Nat) } : Task) = t := by
      rw [← ha]
    simp [restoreTask, hfd2, hres]

/-- Witness for C5: soft delete and restore of a concrete active task. -/
theorem c5_softdelete_restore_roundtrip_witness :
    (softDeleteTask 42 (some t0.id) sampleStore).1 =
        .okMsg "Moved to trash" { t0 with deletedAt := some 42 } ∧
    (∀ s : String, s ≠ "trashed" →
        ∀ u ∈ viewTasks (softDeleteTask 42 (some t0.id) sampleStore).2 (some s),
          u.id ≠ t0.id) ∧
    { t0 with deletedAt := some 42 } ∈
        viewTasks (softDeleteTask 42 (some t0.id) sampleStore).2 (some "trashed") ∧
    restoreTask (some t0.id) (softDeleteTask 42 (some t0.id) sampleStore).2 =
        (.okMsg "Task restored" t0, sampleStore) :=
  c5_softdelete_restore_roundtrip sampleStore t0 42 (by decide) (by decide) rfl

/-! ## C7 -/

/-- C7: in the GridFS variant, permanently deleting a trashed task whose
attachment reference is non-null removes both the task record and the
attachment blob, so a subsequent GET /file/:filename for that attachment
reference answers 404. -/
theorem c7_permanent_delete_removes_blob (st : GridState) (t : Task) (fn : String)
    (hndT : (st.tasks.map Task.id).Nodup)
    (hndF : (st.files.map FileDoc.filename).Nodup)
    (hndI : (st.files.map FileDoc.fid).Nodup)
    (ht : t ∈ st.tasks) (htr : t.deletedAt ≠ none) (hatt : t.attachment = some fn) :
    (permanentDeleteGridfs (some t.id) st).1 = .okMessage "Task permanently deleted" ∧
    (∀ u ∈ (permanentDeleteGridfs (some t.id) st).2.tasks, u.id ≠ t.id) ∧
    getFileGridfs fn (permanentDeleteGridfs (some t.id) st).2 =
      .notFound "File not found" := by
  have hinjT := List.inj_on_of_nodup_map hndT
  have hfind : st.tasks.find?
      (fun u => decide (u.id = t.id) && decide (u.deletedAt ≠ none)) = some t := by
    apply find?_of_unique _ st.tasks t ht
    · simp [htr]
    · intro y hy hpy
      simp only [Bool.and_eq_true, decide_eq_true_eq] at hpy
      exact hinjT hy ht (by rw [hpy.1])
  simp only [decide_not] at hfind
  rcases hf : st.files.find? (fun f => decide (f.filename = fn)) with _ | fd
  · have hpd : permanentDeleteGridfs (some t.id) st =
        (.okMessage "Task permanently deleted",
         { tasks := (deleteOne (fun u => decide (u.id = t.id)) st.tasks).2,
           files := st.files }) := by
      simp [permanentDeleteGridfs, hfind, hatt, hf]
    refine ⟨by rw [hpd], ?_, ?_⟩
    · intro u hu
      rw [hpd] at hu
      exact deleteOne_proj_ne Task.id st.tasks t hndT u hu
    · rw [hpd]
      simp [getFileGridfs, hf]
  · have hfdmem : fd ∈ st.files := List.mem_of_find?_eq_some hf
    have hfdname : fd.filename = fn := by
      have := List.find?_some hf
      simpa using this
    have hpd : permanentDeleteGridfs (some t.id) st =
        (.okMessage "Task permanently deleted",
         { tasks := (deleteOne (fun u => decide (u.id = t.id)) st.tasks).2,
           files := (deleteOne (fun f => decide (f.fid = fd.fid)) st.files).2 }) := by
      simp [permanentDeleteGridfs, hfind, hatt, hf]
    refine ⟨by rw [hpd], ?_, ?_⟩
    · intro u hu
      rw [hpd] at hu
      exact deleteOne_proj_ne Task.id st.tasks t hndT u hu
    · rw [hpd]
      have hnone : ∀ g ∈ (deleteOne (fun f => decide (f.fid = fd.fid)) st.files).2,
          ¬((fun f => decide (f.filename = fn)) g = true) := by
        intro g hg
        simp only [decide_eq_true_eq]
        intro hgfn
        have hgmem : g ∈ st.files := mem_of_mem_deleteOne _ st.files g hg
        have hinjF := List.inj_on_of_nodup_map hndF
        have hgfd : g = fd := hinjF hgmem hfdmem (by rw [hgfn, hfdname])
        have hfidne := deleteOne_proj_ne FileDoc.fid st.files fd hndI g hg
        exact hfidne (by rw [hgfd])
      simp [getFileGridfs, List.find?_eq_none.mpr hnone]

/-- A sample trashed task with an attachment, for the C7 witness. -/
def gTask : Task :=
  { id := 7, text := "doc", attachment := some "abc.png", completed := false,
    createdAt := 1, deletedAt := some 5 }

/-- A sample stored blob, for the C7 witness. -/
def gFile : FileDoc := { fid := 3, filename := "abc.png", contentType := "image/png" }

/-- A sample GridFS-variant state, for the C7 witness. -/
def gState : GridState := { tasks := [gTask], files := [gFile] }

/-- Witness for C7 at a concrete state. -/
theorem c7_permanent_delete_removes_blob_witness :
    (permanentDeleteGridfs (some gTask.id) gState).1 =
      .okMessage "Task permanently deleted" ∧
    (∀ u ∈ (permanentDeleteGridfs (some gTask.id) gState).2.tasks, u.id ≠ gTask.id) ∧
    getFileGridfs "abc.png" (permanentDeleteGridfs (some gTask.id) gState).2 =
      .notFound "File not found" :=
  c7_permanent_delete_removes_blob gState gTask "abc.png"
    (by decide) (by decide) (by decide) (by decide) (by decide) rfl

end TodoApp
